import Mathlib

/-!
# Verification of `gve_devnet_meraki_client_tracker`

Shallow embedding of the Python sources `meraki_client.py`,
`catalyst_client.py` and `app.py`, together with theorems settling the
specification claims.  Python dictionaries are modelled as insertion-ordered
association lists, Python numbers as rationals (`ℚ`), and Python exceptions
as `Except` / early returns as `Option`.
-/

namespace ClientTracker

/-! ## Generic dictionary model -/

/-- Python dict assignment `d[k] = v`: if the key is present the value is
updated in place (keeping insertion position), otherwise the pair is
appended at the end. -/
def dictInsert {α : Type} (d : List (String × α)) (k : String) (v : α) :
    List (String × α) :=
  if d.any (fun p => p.1 = k) then
    d.map (fun p => if p.1 = k then (k, v) else p)
  else
    d ++ [(k, v)]

/-- Lookup in an association list (first match, like a Python dict). -/
def dictGet {α : Type} (d : List (String × α)) (k : String) : Option α :=
  (d.find? (fun p => p.1 = k)).map Prod.snd

/-- Sum of the values of a usage dictionary. -/
def dictSum (d : List (String × ℚ)) : ℚ :=
  (d.map Prod.snd).sum

/-! ## `meraki_client.py`: number formatting -/

/-- Python `round` to an integer: round half to even (banker's rounding). -/
def pyRoundInt (q : ℚ) : ℤ :=
  let f := ⌊q⌋
  let r := q - f
  if r < 1/2 then f
  else if 1/2 < r then f + 1
  else if f % 2 = 0 then f else f + 1

/-- Python `round(q, 2)`. -/
def round2 (q : ℚ) : ℚ := (pyRoundInt (q * 100) : ℚ) / 100

/-- Python `round(q, 1)`. -/
def round1 (q : ℚ) : ℚ := (pyRoundInt (q * 10) : ℚ) / 10

/-- Decimal rendering of the nonnegative rational `n / 100` in Python float
style: trailing zeros of the fraction are dropped but at least one
fractional digit is kept (`191 ↦ "1.91"`, `200 ↦ "2.0"`, `490 ↦ "4.9"`). -/
def fmtHundredths (n : ℕ) : String :=
  let ip := n / 100
  let fr := n % 100
  if fr = 0 then toString ip ++ ".0"
  else if fr % 10 = 0 then toString ip ++ "." ++ toString (fr / 10)
  else if fr < 10 then toString ip ++ ".0" ++ toString fr
  else toString ip ++ "." ++ toString fr

/-- Render a nonnegative rational that is a multiple of `1/100` the way the
Python float produced by `round(x, 2)` prints. -/
def fmtFloat (q : ℚ) : String :=
  if (q * 100).den = 1 then fmtHundredths (q * 100).num.toNat
  else toString q.num ++ "/" ++ toString q.den

/-- Render a number the way Python prints it in the `KB` branch: an integer
prints bare, a non-integer prints as a decimal. -/
def fmtNum (q : ℚ) : String :=
  if q.den = 1 then toString q.num
  else fmtFloat q

/-- Embeds `meraki_client.convert_bytes`: convert a kilobyte count to a
human-readable string (`GB` at ≥ 1024·1024 KB, `MB` at ≥ 1024 KB, else
`KB`), rounding converted values to 2 decimals. -/
def convert_bytes (num : ℚ) : String :=
  if num ≥ 1024 * 1024 then
    fmtFloat (round2 (num / (1024 * 1024))) ++ " GB"
  else if num ≥ 1024 then
    fmtFloat (round2 (num / 1024)) ++ " MB"
  else
    fmtNum num ++ " KB"

/-! ## `meraki_client.py`: pie chart helpers -/

/-- Embeds `meraki_client.create_pie_chart_key`: chart key with format
`"app_name | app_usage (app_download, app_upload)"`.  The code computes
`convert_bytes(round(recv + sent, 1))` for the first part. -/
def create_pie_chart_key (name : String) (recv sent : ℚ) : String :=
  let usage_summary := convert_bytes (round1 (recv + sent))
  let recv2 := convert_bytes recv
  let sent2 := convert_bytes sent
  name ++ " | " ++ usage_summary ++ " (" ++ recv2 ++ ", " ++ sent2 ++ ")"

/-- Embeds `sorted(app_dict.items(), key=lambda x: x[1], reverse=True)`: a stable
sort of the entries, largest value first. -/
def sortDescByValue (d : List (String × ℚ)) : List (String × ℚ) :=
  d.mergeSort (fun a b => decide (b.2 ≤ a.2))

/-- Embeds `meraki_client.create_pie_chart_values`: keep the `min(len, 13)`
largest entries and, when entries remain, store their sum under the key
`'Other'` (a Python dict assignment). -/
def create_pie_chart_values (app_dict : List (String × ℚ)) :
    List (String × ℚ) :=
  let sorted_dict := sortDescByValue app_dict
  let num_items := min sorted_dict.length 13
  let new_dict := sorted_dict.take num_items
  if sorted_dict.length > num_items then
    dictInsert new_dict "Other" (dictSum (sorted_dict.drop num_items))
  else
    new_dict

/-- The 20-application example of the specification: distinct totals. -/
def chartWitnessInput : List (String × ℚ) :=
  [("app01", 20), ("app02", 19), ("app03", 18), ("app04", 17),
   ("app05", 16), ("app06", 15), ("app07", 14), ("app08", 13),
   ("app09", 12), ("app10", 11), ("app11", 10), ("app12", 9),
   ("app13", 8), ("app14", 7), ("app15", 6), ("app16", 5),
   ("app17", 4), ("app18", 3), ("app19", 2), ("app20", 1)]

/-- A 14-entry usage table that already contains the key `Other`. -/
def chartCexInput : List (String × ℚ) :=
  [("Other", 100), ("a01", 13), ("a02", 12), ("a03", 11), ("a04", 10),
   ("a05", 9), ("a06", 8), ("a07", 7), ("a08", 6), ("a09", 5),
   ("a10", 4), ("a11", 3), ("a12", 2), ("a13", 1)]

/-! ## `meraki_client.py`: `MerakiClientInfo.client_detail_history`

The Meraki dashboard is modelled by the per-network outcome of
`dashboard.networks.getNetworkClients`: either a list of client rows or an
`APIError` (classified by whether its message is of the "not found"
class).  The method catches every `APIError` (meraki_client.py:159-162)
and continues with the next network, so no exception ever escapes it. -/

/-- One row of `dashboard.networks.getNetworkClients`, restricted to the
fields the code reads. -/
structure ClientRecord where
  description : String
  ip : String
  mac : String
  user : String
  manufacturer : String
  os : String
  recentDeviceSerial : String
  recentDeviceName : String
  recentDeviceConnection : String
  status : String
  vlan : String
  ssid : String
  switchport : String
deriving DecidableEq

/-- Outcome of the `getNetworkClients` call for one network. -/
inductive DetailResp
  | ok (clients : List ClientRecord)
  | apiErr (notFoundClass : Bool)
deriving DecidableEq

/-- A network of the organization together with the dashboard's response
for it. -/
structure DetailNet where
  name : String
  resp : DetailResp
deriving DecidableEq

/-- Embeds `client_details_minimized` (meraki_client.py:168-186): the relevant
fields, plus `ssid` for wireless clients and `switchport` otherwise. -/
def minimizeClient (r : ClientRecord) : List (String × String) :=
  let d := [("description", r.description), ("ip", r.ip), ("mac", r.mac),
    ("user", r.user), ("manufacturer", r.manufacturer), ("os", r.os),
    ("recentDeviceSerial", r.recentDeviceSerial),
    ("recentDeviceName", r.recentDeviceName),
    ("recentDeviceConnection", r.recentDeviceConnection),
    ("status", r.status), ("vlan", r.vlan)]
  if r.recentDeviceConnection = "Wireless" then
    dictInsert d "ssid" r.ssid
  else
    dictInsert d "switchport" r.switchport

structure NetClientDetails where
  network_name : String
  client_details : List (String × String)
deriving DecidableEq

structure ClientDetails where
  client_mac : String
  networks : List NetClientDetails
deriving DecidableEq

/-- Result of a `client_detail_history` run: the value stored in
`self.clientDetails` and the number of dashboard API calls made. -/
structure DetailRun where
  clientDetails : ClientDetails
  apiCalls : ℕ
deriving DecidableEq

/-- Body of the `for network in self.net_ids` loop
(meraki_client.py:153-192): an `APIError` of any class is caught and the
network skipped; an empty response is also skipped; otherwise the first
row is minimized and appended. -/
def detailStep (acc : List NetClientDetails) (n : DetailNet) :
    List NetClientDetails :=
  match n.resp with
  | .apiErr _ => acc
  | .ok [] => acc
  | .ok (c :: _) => acc ++ [⟨n.name, minimizeClient c⟩]

/-- Embeds `MerakiClientInfo.client_detail_history` (meraki_client.py:141-194).
An empty MAC returns the empty details immediately, before the loop;
otherwise each network costs exactly one API call. -/
def client_detail_history (mac : String) (nets : List DetailNet) :
    DetailRun :=
  if mac = "" then
    { clientDetails := { client_mac := mac, networks := [] }, apiCalls := 0 }
  else
    { clientDetails :=
        { client_mac := mac, networks := nets.foldl detailStep [] },
      apiCalls := nets.length }

/-! ## `meraki_client.py`: `MerakiClientInfo.app_usage_history` -/

/-- One element of `response[0]['applicationUsage']`. -/
structure AppRecord where
  application : String
  received : ℚ
  sent : ℚ
deriving DecidableEq

/-- Outcome of `dashboard.networks.getNetworkClientsApplicationUsage` for
one network: a usage table, an `APIError` whose message contains
`'not found'`, or any other `APIError`. -/
inductive UsageResp
  | ok (applicationUsage : List AppRecord)
  | notFoundErr
  | otherErr
deriving DecidableEq

structure UsageNet where
  name : String
  resp : UsageResp
deriving DecidableEq

/-- Embeds `sorted(response[0]['applicationUsage'],
key=lambda d: d['application'].lower())`. -/
def sortAppsByName (apps : List AppRecord) : List AppRecord :=
  apps.mergeSort
    (fun a b => decide (a.application.toLower ≤ b.application.toLower))

/-- Per-network entry of `app_usage['networks']`: application name ↦
`[convert_bytes(received), convert_bytes(sent)]`. -/
structure NetApps where
  network_name : String
  applications : List (String × List String)
deriving DecidableEq

/-- Per-network entry of `app_usage_pie_chart['networks']`: formatted
chart key ↦ `round(received + sent, 1)`. -/
structure NetPie where
  network_name : String
  applications : List (String × ℚ)
deriving DecidableEq

/-- Summary accumulation step (meraki_client.py:250-258): first
occurrence inserts `[received, sent]`, later occurrences add into both
components in place. -/
def summaryAdd (s : List (String × ℚ × ℚ)) (a : AppRecord) :
    List (String × ℚ × ℚ) :=
  if s.any (fun p => p.1 = a.application) then
    s.map (fun p =>
      if p.1 = a.application then
        (p.1, p.2.1 + a.received, p.2.2 + a.sent)
      else p)
  else
    s ++ [(a.application, a.received, a.sent)]

/-- Body of the `for application in applications` loop
(meraki_client.py:238-261), acting on the summary dictionary, the
network's usage dictionary and the network's pie dictionary at once. -/
def processApp
    (st : List (String × ℚ × ℚ) × List (String × List String) ×
      List (String × ℚ)) (a : AppRecord) :
    List (String × ℚ × ℚ) × List (String × List String) ×
      List (String × ℚ) :=
  (summaryAdd st.1 a,
   dictInsert st.2.1 a.application
     [convert_bytes a.received, convert_bytes a.sent],
   dictInsert st.2.2 (create_pie_chart_key a.application a.received a.sent)
     (round1 (a.received + a.sent)))

/-- State threaded through the `for network in self.net_ids` loop. -/
structure UsageLoopState where
  summary : List (String × ℚ × ℚ)
  usage_networks : List NetApps
  pie_networks : List NetPie
deriving DecidableEq

/-- The `for network in self.net_ids` loop (meraki_client.py:211-268).
`none` models the bare `return` taken on an `APIError` that is not of the
"not found" class (meraki_client.py:225-226): the whole method exits,
discarding all accumulated data and assigning neither output field. -/
def usageLoop : List UsageNet → UsageLoopState → Option UsageLoopState
  | [], st => some st
  | n :: rest, st =>
    match n.resp with
    | .notFoundErr =>
        usageLoop rest
          { st with
            usage_networks := st.usage_networks ++ [⟨n.name, []⟩],
            pie_networks := st.pie_networks ++ [⟨n.name, []⟩] }
    | .otherErr => none
    | .ok apps =>
        let applications := sortAppsByName apps
        let res := applications.foldl processApp (st.summary, [], [])
        usageLoop rest
          { summary := res.1,
            usage_networks := st.usage_networks ++ [⟨n.name, res.2.1⟩],
            pie_networks :=
              st.pie_networks ++
                [⟨n.name, create_pie_chart_values res.2.2⟩] }

/-- Value stored in `self.usage`. -/
structure Usage where
  client_mac : String
  summary : List (String × List String)
  networks : List NetApps
deriving DecidableEq

/-- Value stored in `self.usage_pie_chart`. -/
structure PieUsage where
  client_mac : String
  summary : List (String × ℚ)
  networks : List NetPie
deriving DecidableEq

/-- Post-loop conversion of the summary (meraki_client.py:270-276): each
raw kilobyte pair is replaced in place by its `convert_bytes` strings. -/
def convertSummary (s : List (String × ℚ × ℚ)) :
    List (String × List String) :=
  s.map (fun p => (p.1, [convert_bytes p.2.1, convert_bytes p.2.2]))

/-- Post-loop construction of the summary pie dictionary
(meraki_client.py:278-280). -/
def pieSummary (s : List (String × ℚ × ℚ)) : List (String × ℚ) :=
  s.foldl
    (fun d p =>
      dictInsert d (create_pie_chart_key p.1 p.2.1 p.2.2)
        (round1 (p.2.1 + p.2.2)))
    []

/-- The two fields `self.usage` and `self.usage_pie_chart` after the
method returns (`none` = the Python attribute still holds `None`). -/
structure UsageRun where
  usage : Option Usage
  usage_pie_chart : Option PieUsage
deriving DecidableEq

/-- Marker for an `APIError` escaping a method.  `app_usage_history`
catches every `APIError` it encounters (meraki_client.py:216-226), so its
embedding never produces `Except.error`. -/
inductive ApiAbort
  | apiError
deriving DecidableEq

/-- Embeds `MerakiClientInfo.app_usage_history` (meraki_client.py:196-287).  The
`Except` layer records whether an `APIError` escapes to the caller; the
method swallows every `APIError`, so the result is always `Except.ok`. -/
def app_usage_history (mac : String) (nets : List UsageNet) :
    Except ApiAbort UsageRun :=
  if mac = "" then
    .ok { usage := some { client_mac := mac, summary := [], networks := [] },
          usage_pie_chart := none }
  else
    match usageLoop nets
        { summary := [], usage_networks := [], pie_networks := [] } with
    | none => .ok { usage := none, usage_pie_chart := none }
    | some st =>
        .ok { usage := some
                { client_mac := mac,
                  summary := convertSummary st.summary,
                  networks := st.usage_networks },
              usage_pie_chart := some
                { client_mac := mac,
                  summary := create_pie_chart_values (pieSummary st.summary),
                  networks := st.pie_networks } }

/-- Reference value: a network's received kilobytes for an application
(the sum of the `received` fields of the rows carrying that name; with
distinct names, the single row's value). -/
def netReceived (apps : List AppRecord) (name : String) : ℚ :=
  ((apps.filter (fun a => a.application = name)).map AppRecord.received).sum

/-- Reference value: a network's sent kilobytes for an application. -/
def netSent (apps : List AppRecord) (name : String) : ℚ :=
  ((apps.filter (fun a => a.application = name)).map AppRecord.sent).sum

/-- The rows a network contributes to the aggregation: its usage table
when the call succeeded, nothing otherwise. -/
def okApps (n : UsageNet) : List AppRecord :=
  match n.resp with
  | .ok apps => apps
  | _ => []

/-- Summary lookup, as a raw kilobyte pair. -/
def lookupSummary (s : List (String × ℚ × ℚ)) (name : String) :
    Option (ℚ × ℚ) :=
  (s.find? (fun p => p.1 = name)).map Prod.snd

/-- Expected per-network usage table (specification reading of
meraki_client.py:238-243): every application row inserted with its
`convert_bytes` strings, in sorted order. -/
def netAppsTable (apps : List AppRecord) : List (String × List String) :=
  (sortAppsByName apps).foldl
    (fun d a =>
      dictInsert d a.application
        [convert_bytes a.received, convert_bytes a.sent])
    []

/-- Expected per-network pie table before the rollup
(meraki_client.py:245-248). -/
def pieAppsTable (apps : List AppRecord) : List (String × ℚ) :=
  (sortAppsByName apps).foldl
    (fun d a =>
      dictInsert d (create_pie_chart_key a.application a.received a.sent)
        (round1 (a.received + a.sent)))
    []

/-- Expected entry of `app_usage['networks']` for one network. -/
def netExpected (n : UsageNet) : NetApps :=
  match n.resp with
  | .ok apps => ⟨n.name, netAppsTable apps⟩
  | _ => ⟨n.name, []⟩

/-- Expected entry of `app_usage_pie_chart['networks']` for one network. -/
def pieExpected (n : UsageNet) : NetPie :=
  match n.resp with
  | .ok apps => ⟨n.name, create_pie_chart_values (pieAppsTable apps)⟩
  | _ => ⟨n.name, []⟩

/-- Expected summary after the whole loop: all processed rows folded into
the summary dictionary, network by network, in order. -/
def summaryExpected (nets : List UsageNet) : List (String × ℚ × ℚ) :=
  nets.foldl (fun s n => (sortAppsByName (okApps n)).foldl summaryAdd s) []

/-- Raw kilobyte totals recorded in a summary dictionary for an
application (`(0, 0)` when the application is absent). -/
def summaryTotals (s : List (String × ℚ × ℚ)) (name : String) : ℚ × ℚ :=
  (lookupSummary s name).getD (0, 0)

/-- The entry `client_detail_history` produces for one network: the
minimized first row when the call succeeded with data, nothing when the
response was empty or an `APIError` (of any class) was raised. -/
def detailExpected (n : DetailNet) : Option NetClientDetails :=
  match n.resp with
  | .ok (c :: _) => some ⟨n.name, minimizeClient c⟩
  | _ => none

/-- A concrete wired client row used in witnesses and counterexamples. -/
def sampleClient : ClientRecord :=
  { description := "laptop", ip := "10.0.0.5", mac := "aa:bb:cc:dd:ee:ff",
    user := "jdoe", manufacturer := "Cisco", os := "Linux",
    recentDeviceSerial := "Q2XX-1", recentDeviceName := "sw-access-1",
    recentDeviceConnection := "Wired", status := "Online", vlan := "10",
    ssid := "", switchport := "Gi1/0/1" }

/-- Networks used by the usage witnesses: one "not found" error followed
by one successful response. -/
def usageWitnessNets : List UsageNet :=
  [⟨"N1", .notFoundErr⟩,
   ⟨"N2", .ok [⟨"AppA", 2000000, 500000⟩, ⟨"appB", 10, 5⟩]⟩]

/-- Networks used by the C6 witness: the application `A` appears in two
networks. -/
def summaryWitnessNets : List UsageNet :=
  [⟨"N1", .ok [⟨"A", 10, 5⟩, ⟨"B", 7, 3⟩]⟩, ⟨"N2", .ok [⟨"A", 1, 2⟩]⟩]

/-- Projection used to display the per-network tables a run delivered. -/
def getUsageNetworks (r : Except ApiAbort UsageRun) : List NetApps :=
  match r with
  | .ok u => (u.usage.map Usage.networks).getD []
  | .error _ => []

/-! ## `catalyst_client.py`: Python string primitives

Implemented character by character with Python's semantics: `str.split()`
splits on whitespace runs and drops empty parts, `str.strip()` removes
leading and trailing whitespace, `str.split('\n')` keeps empty parts,
`'x' in s` is a substring test, `s.startswith(p)` a prefix test. -/

def pyStartsWithChars : List Char → List Char → Bool
  | [], _ => true
  | _ :: _, [] => false
  | a :: as, b :: bs => a = b && pyStartsWithChars as bs

def pyContainsSub (hay needle : List Char) : Bool :=
  match hay with
  | [] => needle.isEmpty
  | _ :: t => pyStartsWithChars needle hay || pyContainsSub t needle

def pySplitAux : List Char → List Char → List String
  | [], acc => if acc.isEmpty then [] else [acc.reverse.asString]
  | c :: rest, acc =>
    if c.isWhitespace then
      if acc.isEmpty then pySplitAux rest []
      else acc.reverse.asString :: pySplitAux rest []
    else pySplitAux rest (c :: acc)

/-- Python `str.split()` (no separator). -/
def pySplit (s : String) : List String := pySplitAux s.toList []

/-- Python `str.strip()`. -/
def pyStrip (s : String) : String :=
  ((s.toList.dropWhile Char.isWhitespace).reverse.dropWhile
    Char.isWhitespace).reverse.asString

def splitLinesAux : List Char → List Char → List String
  | [], acc => [acc.reverse.asString]
  | c :: rest, acc =>
    if c = '\n' then acc.reverse.asString :: splitLinesAux rest []
    else splitLinesAux rest (c :: acc)

/-- Python `str.split('\n')`. -/
def pySplitLines (s : String) : List String := splitLinesAux s.toList []

/-! ## `catalyst_client.py`: data model -/

/-- A textfsm-parsed row, restricted to the fields the code reads. -/
structure Row where
  address : String
  mac : String
  status : String
  proto : String
deriving DecidableEq

/-- Output of `connection.send_command(..., use_textfsm=True)`: a raw
string when no template matched, else a list of parsed rows. -/
inductive CmdOut
  | str (s : String)
  | rows (rs : List Row)
deriving DecidableEq

/-- Python `'Invalid' in output`: a substring test on a string; on a row
list, membership of the word in the list, which is false. -/
def containsInvalid : CmdOut → Bool
  | .str s => pyContainsSub s.toList "Invalid".toList
  | .rows _ => false

/-- Embeds `catalyst_client.execute_switch_commands`: `None` when the output
carries the invalid-command marker, the output itself otherwise. -/
def execute_switch_commands (out : CmdOut) : Option CmdOut :=
  if containsInvalid out then none else some out

/-- Python truthiness of an execute result (`if output:`). -/
def truthy : Option CmdOut → Bool
  | none => false
  | some (.str s) => s ≠ ""
  | some (.rows rs) => !rs.isEmpty

/-- Python `output != ''` on an execute result (`None != ''` is true, a
row list is `!= ''` as well). -/
def neqEmptyStr : Option CmdOut → Bool
  | some (.str s) => s ≠ ""
  | _ => true

/-- Python truthiness of an optional string attribute. -/
def strTruthy : Option String → Bool
  | none => false
  | some s => s ≠ ""

/-- Embeds the `convert_mac` grouping `[address[i:i+4] for i in range(0, len, 4)]`. -/
def chunk4 : List Char → List (List Char)
  | [] => []
  | [a] => [[a]]
  | [a, b] => [[a, b]]
  | [a, b, c] => [[a, b, c]]
  | a :: b :: c :: d :: rest => [a, b, c, d] :: chunk4 rest

/-- Embeds `catalyst_client.convert_mac`: drop the colons, lowercase, dot-join
groups of four characters. -/
def convert_mac (mac : String) : String :=
  let converted_address :=
    (mac.toList.filter (fun c => c ≠ ':')).map Char.toLower
  String.intercalate "." ((chunk4 converted_address).map List.asString)

/-- The mutable fields of `CatalystClientInfo`. -/
structure CatState where
  switch_hostname : Option String
  vlan : Option String
  interface : Option String
  interface_status : List (String × String)
  cdp : CmdOut
  lldp : CmdOut
  mac : Option String
  lan_ip : Option String
deriving DecidableEq

/-- Embeds `CatalystClientInfo.__init__`: `convert_mac(mac) if mac else None`. -/
def initState (mac : Option String) (ip : Option String) : CatState :=
  { switch_hostname := none, vlan := none, interface := none,
    interface_status := [], cdp := .rows [], lldp := .rows [],
    mac :=
      match mac with
      | some m => if m = "" then none else some (convert_mac m)
      | none => none,
    lan_ip := ip }

/-- Python exceptions the extraction helpers can raise:
`AttributeError` from `.strip()` / `.split('\n')` on `None` or a list,
`TypeError` from indexing a string element with a string key,
`IndexError` from an out-of-range list index. -/
inductive PyErr
  | attributeError
  | typeError
  | indexError
deriving DecidableEq

/-- Embeds `CatalystClientInfo.clientPresentCheck`: query the MAC address table
when a MAC is known, the ARP table otherwise, and return
`output != ''`. -/
def clientPresentCheck (st : CatState) (macOut arpOut : CmdOut) : Bool :=
  if strTruthy st.mac then
    neqEmptyStr (execute_switch_commands macOut)
  else
    neqEmptyStr (execute_switch_commands arpOut)

/-- Embeds `CatalystClientInfo.hostname`: guarded by `if output:`; parses
`output.strip().split()[1]`. -/
def hostname (out : CmdOut) (st : CatState) : Except PyErr CatState :=
  match execute_switch_commands out with
  | none => .ok st
  | some (.str s) =>
    if s ≠ "" then
      match (pySplit (pyStrip s)).get? 1 with
      | some h => .ok { st with switch_hostname := some h }
      | none => .error .indexError
    else .ok st
  | some (.rows rs) =>
    if !rs.isEmpty then .error .attributeError else .ok st

/-- Embeds `CatalystClientInfo.arpTable`: guarded by
`if output and len(output) > 0:`; reads `output[0]['address']` (MAC
known) or `output[0]['mac']` (IP known). -/
def arpTable (out : CmdOut) (st : CatState) : Except PyErr CatState :=
  if strTruthy st.mac then
    match execute_switch_commands out with
    | none => .ok st
    | some (.str s) => if s ≠ "" then .error .typeError else .ok st
    | some (.rows []) => .ok st
    | some (.rows (r :: _)) => .ok { st with lan_ip := some r.address }
  else
    match execute_switch_commands out with
    | none => .ok st
    | some (.str s) => if s ≠ "" then .error .typeError else .ok st
    | some (.rows []) => .ok st
    | some (.rows (r :: _)) => .ok { st with mac := some r.mac }

/-- Embeds `CatalystClientInfo.macAddressTable` (catalyst_client.py:105-112):
NOT guarded; `output.strip().split()` is applied to the execute result
directly, and `output[0]` / `output[3]` are read. -/
def macAddressTable (out : CmdOut) (st : CatState) :
    Except PyErr CatState :=
  match execute_switch_commands out with
  | none => .error .attributeError
  | some (.rows _) => .error .attributeError
  | some (.str s) =>
    let toks := pySplit (pyStrip s)
    match toks.get? 0, toks.get? 3 with
    | some v, some i => .ok { st with vlan := some v, interface := some i }
    | _, _ => .error .indexError

/-- One line of the `show int ... trunk` parsing loop
(catalyst_client.py:143-158). -/
def ifaceTrunkLine (d : List (String × String)) (line : String) :
    List (String × String) :=
  if pyStartsWithChars "Port".toList line.toList then d
  else
    let t := pySplit line
    if t.length = 5 then
      let d1 := dictInsert d "mode"
        (if t.getD 1 "" = "off" then "access" else "trunk")
      let d2 := dictInsert d1 "encapsulation" (t.getD 2 "")
      dictInsert d2 "native_vlan" (t.getD 4 "")
    else if t.length = 2 ∧ ¬ d.any (fun p => p.1 = "allowed_vlans") then
      dictInsert d "allowed_vlans" (t.getD 1 "")
    else d

/-- Embeds `CatalystClientInfo.interfaceStatus`: the `show ip int br` query
(guarded by `if output and len(output) > 0:`) then the
`show int ... trunk` query (guarded by `if output:`, then
`output.split('\n')` and the line loop). -/
def interfaceStatus (out1 out2 : CmdOut) (st : CatState) :
    Except PyErr CatState :=
  let step1 : Except PyErr CatState :=
    match execute_switch_commands out1 with
    | none => .ok st
    | some (.str s) => if s ≠ "" then .error .typeError else .ok st
    | some (.rows []) => .ok st
    | some (.rows (r :: _)) =>
      let status_entry := r.status ++ "/" ++ r.proto
      let d := dictInsert st.interface_status "status" status_entry
      .ok { st with interface_status := d }
  match step1 with
  | .error e => .error e
  | .ok st1 =>
    match execute_switch_commands out2 with
    | none => .ok st1
    | some (.str s) =>
      if s ≠ "" then
        let lines := (pySplitLines s).filter (fun x => x ≠ "")
        let d := lines.foldl ifaceTrunkLine st1.interface_status
        .ok { st1 with interface_status := d }
      else .ok st1
    | some (.rows rs) =>
      if !rs.isEmpty then .error .attributeError else .ok st1

/-- Embeds `CatalystClientInfo.neighborInformation`: assigns the raw outputs to
`self.cdp` and `self.lldp` under `if output and len(output) > 0:`; never
raises. -/
def neighborInformation (out1 out2 : CmdOut) (st : CatState) :
    Except PyErr CatState :=
  let st1 :=
    match execute_switch_commands out1 with
    | none => st
    | some o => if truthy (some o) then { st with cdp := o } else st
  let st2 :=
    match execute_switch_commands out2 with
    | none => st1
    | some o => if truthy (some o) then { st1 with lldp := o } else st1
  .ok st2

/-- The raw switch outputs feeding one extraction sequence. -/
structure ExtractOutputs where
  hostnameOut : CmdOut
  arpOut : CmdOut
  macTableOut : CmdOut
  ifaceOut : CmdOut
  trunkOut : CmdOut
  cdpOut : CmdOut
  lldpOut : CmdOut
deriving DecidableEq

/-- The extraction sequence of `app.catalyst_client_information`
(app.py:75-79): `hostname`, `arpTable`, `macAddressTable`,
`interfaceStatus`, `neighborInformation`; an uncaught Python exception in
any step aborts the remaining steps. -/
def extractDetails (o : ExtractOutputs) (st : CatState) :
    Except PyErr CatState :=
  match hostname o.hostnameOut st with
  | .error e => .error e
  | .ok st1 =>
    match arpTable o.arpOut st1 with
    | .error e => .error e
    | .ok st2 =>
      match macAddressTable o.macTableOut st2 with
      | .error e => .error e
      | .ok st3 =>
        match interfaceStatus o.ifaceOut o.trunkOut st3 with
        | .error e => .error e
        | .ok st4 => neighborInformation o.cdpOut o.lldpOut st4

/-- Scenario for one probe thread: whether `ConnectHandler` succeeds, the
present-check outputs and the extraction outputs. -/
structure ProbeInput where
  mac : Option String
  ip : Option String
  connectOk : Bool
  checkMacOut : CmdOut
  checkArpOut : CmdOut
  extract : ExtractOutputs
deriving DecidableEq

/-- Observable outcome of one probe thread: whether a session was opened,
whether `disconnectFromSwitch` ran before the probe ended, and the value
stored in the `cat_details` global. -/
structure ProbeRun where
  connected : Bool
  disconnected : Bool
  cat_details : Option CatState
deriving DecidableEq

def exceptOk {ε α : Type} : Except ε α → Bool
  | .ok _ => true
  | .error _ => false

/-- Embeds `app.catalyst_client_information` (app.py:52-86): connect, check
presence, and only on the full success path (client present AND
extraction raised nothing) call `disconnectFromSwitch` and publish
`cat_details`. -/
def catalyst_client_information (inp : ProbeInput) : ProbeRun :=
  let st0 := initState inp.mac inp.ip
  if inp.connectOk then
    if clientPresentCheck st0 inp.checkMacOut inp.checkArpOut then
      match extractDetails inp.extract st0 with
      | .ok stF =>
        { connected := true, disconnected := true,
          cat_details := some stF }
      | .error _ =>
        { connected := true, disconnected := false, cat_details := none }
    else
      { connected := true, disconnected := false, cat_details := none }
  else
    { connected := false, disconnected := false, cat_details := none }

/-- Benign outputs for every extraction query. -/
def benignOutputs : ExtractOutputs :=
  { hostnameOut := .str "hostname sw-access-1",
    arpOut := .rows [⟨"10.0.0.5", "aabb.ccdd.eeff", "", ""⟩],
    macTableOut := .str "  10    aabb.ccdd.eeff    DYNAMIC     Gi1/0/1",
    ifaceOut := .rows [⟨"", "", "up", "up"⟩],
    trunkOut := .str "Port      Mode         Encapsulation  Static  Native\nGi1/0/1   off          802.1q         trunking      10",
    cdpOut := .rows [⟨"sw-core", "Gi1/0/48", "R S I", "C9300"⟩],
    lldpOut := .rows [] }

/-- The same outputs, except that the MAC-address-table query comes back
with the invalid-command marker. -/
def invalidMacTableOutputs : ExtractOutputs :=
  { benignOutputs with
    macTableOut := .str "% Invalid input detected at marker" }

/-- Probe scenario: connection succeeds but the client-present check
returns an empty string, so the client is not on this switch. -/
def probeAbsentInput : ProbeInput :=
  { mac := some "aa:bb:cc:dd:ee:ff", ip := none, connectOk := true,
    checkMacOut := .str "", checkArpOut := .str "",
    extract := benignOutputs }

end ClientTracker

namespace ClientTracker

/-! ## Helper lemmas -/

/-- The function `dictInsert` never shrinks the dictionary and grows it by at most one. -/
theorem dictInsert_length {α : Type} (d : List (String × α)) (k : String)
    (v : α) : (dictInsert d k v).length ≤ d.length + 1 := by
  unfold dictInsert
  split
  · simp
  · simp

/-- When the key is absent, `dictInsert` appends the pair at the end. -/
theorem dictInsert_of_not_mem {α : Type} {d : List (String × α)} {k : String}
    (v : α) (h : k ∉ d.map Prod.fst) : dictInsert d k v = d ++ [(k, v)] := by
  unfold dictInsert
  rw [if_neg]
  simp only [List.any_eq_true, decide_eq_true_eq, not_exists]
  rintro p ⟨hp, hpk⟩
  exact h (List.mem_map.mpr ⟨p, hp, hpk⟩)

/-- The sorted dictionary is a permutation of the input, hence has the same
key multiset and the same value sum. -/
theorem sortDescByValue_perm (d : List (String × ℚ)) :
    (sortDescByValue d).Perm d :=
  List.mergeSort_perm d _

theorem dictSum_sortDescByValue (d : List (String × ℚ)) :
    dictSum (sortDescByValue d) = dictSum d :=
  ((sortDescByValue_perm d).map Prod.snd).sum_eq

theorem sortDescByValue_keys_mem {d : List (String × ℚ)} {k : String}
    (h : k ∈ (sortDescByValue d).map Prod.fst) : k ∈ d.map Prod.fst := by
  rcases List.mem_map.mp h with ⟨p, hp, rfl⟩
  exact List.mem_map.mpr ⟨p, (sortDescByValue_perm d).mem_iff.mp hp, rfl⟩

/-- Entries of the sorted dictionary are pairwise in descending value
order. -/
theorem sortDescByValue_pairwise (d : List (String × ℚ)) :
    (sortDescByValue d).Pairwise (fun a b => b.2 ≤ a.2) := by
  have h := @List.sorted_mergeSort (String × ℚ)
    (fun a b : String × ℚ => decide (b.2 ≤ a.2))
    (fun a b c hab hbc => by
      simp only [decide_eq_true_eq] at *
      exact le_trans hbc hab)
    (fun a b => by
      simp only [Bool.or_eq_true, decide_eq_true_eq]
      exact le_total b.2 a.2)
    d
  exact h.imp (by simp only [decide_eq_true_eq]; exact fun h => h)

theorem dictSum_append (a b : List (String × ℚ)) :
    dictSum (a ++ b) = dictSum a + dictSum b := by
  simp [dictSum]

/-! ## Claim C1 -/

/-- C1 (amended): for every usage table whose key set does not already
contain `"Other"`, the chart rollup returns at most 14 entries whose values
sum to the sum of the input values; when the input has more than 13
entries, the 13 value-largest entries (the first 13 of the descending
stable sort) are kept verbatim, every kept entry's value is at least every
folded entry's value, and the remaining entries are folded into a single
final `"Other"` entry equal to their sum.  (The original claim, without
the `"Other" ∉ keys` restriction, is refuted by
`C1_pie_chart_rollup_cex`.) -/
theorem C1_pie_chart_rollup (d : List (String × ℚ))
    (hother : "Other" ∉ d.map Prod.fst) :
    (create_pie_chart_values d).length ≤ 14 ∧
    dictSum (create_pie_chart_values d) = dictSum d ∧
    (13 < d.length →
      create_pie_chart_values d =
        (sortDescByValue d).take 13 ++
          [("Other", dictSum ((sortDescByValue d).drop 13))] ∧
      ∀ p ∈ (sortDescByValue d).take 13,
        ∀ q ∈ (sortDescByValue d).drop 13, q.2 ≤ p.2) := by
  have hlen : (sortDescByValue d).length = d.length :=
    (sortDescByValue_perm d).length_eq
  have hotherTake : ∀ n : ℕ,
      "Other" ∉ ((sortDescByValue d).take n).map Prod.fst := by
    intro n h
    rcases List.mem_map.mp h with ⟨p, hp, hk⟩
    exact hother
      (sortDescByValue_keys_mem
        (List.mem_map.mpr ⟨p, List.take_subset n _ hp, hk⟩))
  have htakelen : ∀ n : ℕ, ((sortDescByValue d).take n).length ≤ n := by
    intro n
    rw [List.length_take]
    exact min_le_left _ _
  refine ⟨?_, ?_, ?_⟩
  · simp only [create_pie_chart_values]
    split
    · have h1 := dictInsert_length
        ((sortDescByValue d).take (min (sortDescByValue d).length 13))
        "Other"
        (dictSum ((sortDescByValue d).drop (min (sortDescByValue d).length 13)))
      have h2 := htakelen (min (sortDescByValue d).length 13)
      have h3 : min (sortDescByValue d).length 13 ≤ 13 := min_le_right _ _
      omega
    · have h2 := htakelen (min (sortDescByValue d).length 13)
      have h3 : min (sortDescByValue d).length 13 ≤ 13 := min_le_right _ _
      omega
  · simp only [create_pie_chart_values]
    split
    · rw [dictInsert_of_not_mem _ (hotherTake _), dictSum_append]
      have hsingle : dictSum
          [("Other",
            dictSum ((sortDescByValue d).drop
              (min (sortDescByValue d).length 13)))] =
          dictSum ((sortDescByValue d).drop
            (min (sortDescByValue d).length 13)) := by
        simp [dictSum]
      rw [hsingle, ← dictSum_append, List.take_append_drop,
        dictSum_sortDescByValue]
    · rename_i hcond
      have hmin : min (sortDescByValue d).length 13 =
          (sortDescByValue d).length := by omega
      rw [hmin, List.take_length, dictSum_sortDescByValue]
  · intro h13
    have hgt : (sortDescByValue d).length >
        min (sortDescByValue d).length 13 := by omega
    have hmin : min (sortDescByValue d).length 13 = 13 := by omega
    constructor
    · simp only [create_pie_chart_values]
      rw [if_pos hgt, hmin, dictInsert_of_not_mem _ (hotherTake 13)]
    · have hp := sortDescByValue_pairwise d
      have hp2 : ((sortDescByValue d).take 13 ++
          (sortDescByValue d).drop 13).Pairwise
            (fun a b : String × ℚ => b.2 ≤ a.2) := by
        rw [List.take_append_drop]
        exact hp
      rw [List.pairwise_append] at hp2
      exact hp2.2.2

/-- Witness for C1 at the specification's 20-application example. -/
theorem C1_pie_chart_rollup_witness :
    ("Other" ∉ chartWitnessInput.map Prod.fst) ∧
    dictSum (create_pie_chart_values chartWitnessInput) =
      dictSum chartWitnessInput ∧
    (create_pie_chart_values chartWitnessInput).length ≤ 14 :=
  ⟨by decide,
   (C1_pie_chart_rollup chartWitnessInput (by decide)).2.1,
   (C1_pie_chart_rollup chartWitnessInput (by decide)).1⟩

/-- Counterexample to C1 as stated: on a table that already contains the
key `"Other"` the dict assignment `new_dict['Other'] = other_value`
overwrites a kept entry, so the output values no longer sum to the input
values. -/
theorem C1_pie_chart_rollup_cex :
    dictSum (create_pie_chart_values chartCexInput) ≠ dictSum chartCexInput := by
  with_unfolding_all decide

/-! ## Claims C9 and C10: empty MAC -/

/-- C9: with an empty MAC, `client_detail_history` stores an all-absent
details structure (`networks` empty) and returns before the network loop,
so zero dashboard API calls are made. -/
theorem C9_empty_mac_details (nets : List DetailNet) :
    client_detail_history "" nets =
      { clientDetails := { client_mac := "", networks := [] },
        apiCalls := 0 } := by
  simp [client_detail_history]

/-- C10: with an empty MAC, `app_usage_history` stores the empty shape in
`self.usage` but returns before `self.usage_pie_chart` is ever assigned,
so the chart field remains `None` while the usage field is a populated
but empty structure. -/
theorem C10_empty_mac_pie_chart (nets : List UsageNet) :
    app_usage_history "" nets =
      .ok { usage :=
              some { client_mac := "", summary := [], networks := [] },
            usage_pie_chart := none } := by
  simp [app_usage_history]

/-! ## Claim C2: API errors in `client_detail_history` -/

/-- The detail loop is the `filterMap` of `detailExpected`. -/
theorem foldl_detailStep (nets : List DetailNet)
    (acc : List NetClientDetails) :
    nets.foldl detailStep acc = acc ++ nets.filterMap detailExpected := by
  induction nets generalizing acc with
  | nil => simp
  | cons n rest ih =>
    cases hr : n.resp with
    | apiErr b => simp [detailStep, detailExpected, hr, ih]
    | ok cs =>
      cases cs with
      | nil => simp [detailStep, detailExpected, hr, ih]
      | cons c cs' => simp [detailStep, detailExpected, hr, ih]

/-- C2 (amended): for a nonempty MAC, `client_detail_history` makes one
API call per network of the organization and records exactly the networks
whose call succeeded with a nonempty response; a network whose call
raises an `APIError` of ANY class — "client not found" or any other — is
recorded as absent and processing continues with the next network.  No
API error ever aborts the resolution or reaches the caller (the original
claim's abort-on-other-errors behaviour is refuted by
`C2_detail_api_errors_cex`). -/
theorem C2_detail_api_errors (mac : String) (hmac : mac ≠ "")
    (nets : List DetailNet) :
    (client_detail_history mac nets).clientDetails =
      { client_mac := mac, networks := nets.filterMap detailExpected } ∧
    (client_detail_history mac nets).apiCalls = nets.length := by
  rw [client_detail_history, if_neg hmac]
  exact ⟨by simp [foldl_detailStep], rfl⟩

/-- Witness for C2 at a run containing both error classes. -/
theorem C2_detail_api_errors_witness :
    ("aa:bb:cc:dd:ee:ff" : String) ≠ "" ∧
    (client_detail_history "aa:bb:cc:dd:ee:ff"
        [⟨"N1", .apiErr true⟩, ⟨"N2", .apiErr false⟩,
         ⟨"N3", .ok [sampleClient]⟩]).clientDetails =
      { client_mac := "aa:bb:cc:dd:ee:ff",
        networks :=
          [⟨"N1", .apiErr true⟩, ⟨"N2", .apiErr false⟩,
           ⟨"N3", DetailResp.ok [sampleClient]⟩].filterMap detailExpected } :=
  ⟨by decide,
   (C2_detail_api_errors "aa:bb:cc:dd:ee:ff" (by decide) _).1⟩

/-- Counterexample to C2 as stated: network `N1` raises an `APIError`
that is NOT of the "client not found" class, yet the loop `continue`s and
network `N2` is still resolved — the error neither aborts the resolution
nor surfaces to the caller. -/
theorem C2_detail_api_errors_cex :
    (client_detail_history "aa:bb:cc:dd:ee:ff"
        [⟨"N1", .apiErr false⟩, ⟨"N2", .ok [sampleClient]⟩]
      ).clientDetails.networks.map NetClientDetails.network_name =
      ["N2"] := by
  rfl

/-! ## Claim C3: API errors in `app_usage_history` -/

/-- Splitting the per-application loop into its three dictionaries. -/
theorem foldl_processApp (apps : List AppRecord)
    (s : List (String × ℚ × ℚ)) (na : List (String × List String))
    (pa : List (String × ℚ)) :
    apps.foldl processApp (s, na, pa) =
      (apps.foldl summaryAdd s,
       apps.foldl
         (fun d a =>
           dictInsert d a.application
             [convert_bytes a.received, convert_bytes a.sent]) na,
       apps.foldl
         (fun d a =>
           dictInsert d
             (create_pie_chart_key a.application a.received a.sent)
             (round1 (a.received + a.sent))) pa) := by
  induction apps generalizing s na pa with
  | nil => rfl
  | cons a rest ih => simp [processApp, ih]

/-- A run of the network loop that meets no `APIError` outside the
"not found" class ends with all networks processed. -/
theorem usageLoop_no_abort (nets : List UsageNet)
    (h : ∀ n ∈ nets, n.resp ≠ .otherErr) (st : UsageLoopState) :
    usageLoop nets st = some
      { summary := nets.foldl
          (fun s n => (sortAppsByName (okApps n)).foldl summaryAdd s)
          st.summary,
        usage_networks := st.usage_networks ++ nets.map netExpected,
        pie_networks := st.pie_networks ++ nets.map pieExpected } := by
  induction nets generalizing st with
  | nil => simp [usageLoop]
  | cons n rest ih =>
    have hn := h n (List.mem_cons_self n rest)
    have hr : ∀ m ∈ rest, m.resp ≠ .otherErr :=
      fun m hm => h m (List.mem_cons_of_mem n hm)
    cases hresp : n.resp with
    | notFoundErr =>
      rw [usageLoop, hresp]
      rw [ih hr]
      simp [okApps, hresp, netExpected, pieExpected, sortAppsByName]
    | otherErr => exact absurd hresp hn
    | ok apps =>
      rw [usageLoop, hresp]
      simp only [foldl_processApp]
      rw [ih hr]
      simp [okApps, hresp, netExpected, pieExpected, netAppsTable,
        pieAppsTable]

/-- A run of the network loop that meets an `APIError` outside the
"not found" class aborts: the bare `return` discards everything. -/
theorem usageLoop_abort (nets : List UsageNet)
    (h : ∃ n ∈ nets, n.resp = .otherErr) (st : UsageLoopState) :
    usageLoop nets st = none := by
  induction nets generalizing st with
  | nil => simp at h
  | cons n rest ih =>
    cases hresp : n.resp with
    | otherErr => rw [usageLoop, hresp]
    | notFoundErr =>
      rcases h with ⟨m, hm, hmo⟩
      rcases List.mem_cons.mp hm with rfl | hm'
      · rw [hresp] at hmo; exact absurd hmo (by simp)
      · rw [usageLoop, hresp]
        exact ih ⟨m, hm', hmo⟩ _
    | ok apps =>
      rcases h with ⟨m, hm, hmo⟩
      rcases List.mem_cons.mp hm with rfl | hm'
      · rw [hresp] at hmo; exact absurd hmo (by simp)
      · rw [usageLoop, hresp]
        exact ih ⟨m, hm', hmo⟩ _

/-- An `APIError` outside the "not found" class makes the method return
with neither field assigned — wrapped in a normal `Except.ok`. -/
theorem app_usage_history_abort {mac : String} (hmac : mac ≠ "")
    {nets : List UsageNet} (h : ∃ n ∈ nets, n.resp = .otherErr) :
    app_usage_history mac nets =
      .ok { usage := none, usage_pie_chart := none } := by
  rw [app_usage_history, if_neg hmac, usageLoop_abort nets h]

/-- An error-free run (only successes and "not found" errors) delivers
both fields, with one table per network. -/
theorem app_usage_history_ok {mac : String} (hmac : mac ≠ "")
    {nets : List UsageNet} (h : ∀ n ∈ nets, n.resp ≠ .otherErr) :
    app_usage_history mac nets =
      .ok { usage := some
              { client_mac := mac,
                summary := convertSummary (summaryExpected nets),
                networks := nets.map netExpected },
            usage_pie_chart := some
              { client_mac := mac,
                summary := create_pie_chart_values
                  (pieSummary (summaryExpected nets)),
                networks := nets.map pieExpected } } := by
  rw [app_usage_history, if_neg hmac, usageLoop_no_abort nets h]
  rfl

/-- C3 (amended): for a nonempty MAC, a network whose usage call raises a
"not found" `APIError` appears in the output with an empty applications
table and processing continues with the next network; an `APIError` of
any other class makes the method return at once with NEITHER field
assigned — no result is produced for any network, processed or not, and
the error is swallowed (a normal `Except.ok` return), not surfaced to the
caller.  (The original claim's "error is surfaced" part is refuted by
`C3_usage_api_errors_cex`.) -/
theorem C3_usage_api_errors (mac : String) (hmac : mac ≠ "")
    (nets : List UsageNet) :
    ((∃ n ∈ nets, n.resp = .otherErr) →
      app_usage_history mac nets =
        .ok { usage := none, usage_pie_chart := none }) ∧
    ((∀ n ∈ nets, n.resp ≠ .otherErr) →
      app_usage_history mac nets =
        .ok { usage := some
                { client_mac := mac,
                  summary := convertSummary (summaryExpected nets),
                  networks := nets.map netExpected },
              usage_pie_chart := some
                { client_mac := mac,
                  summary := create_pie_chart_values
                    (pieSummary (summaryExpected nets)),
                  networks := nets.map pieExpected } }) :=
  ⟨fun h => app_usage_history_abort hmac h,
   fun h => app_usage_history_ok hmac h⟩

/-- Witness for C3: a "not found" network followed by a successful one. -/
theorem C3_usage_api_errors_witness :
    ("aa:bb:cc:dd:ee:ff" : String) ≠ "" ∧
    (∀ n ∈ usageWitnessNets, n.resp ≠ .otherErr) ∧
    app_usage_history "aa:bb:cc:dd:ee:ff" usageWitnessNets =
      .ok { usage := some
              { client_mac := "aa:bb:cc:dd:ee:ff",
                summary := convertSummary (summaryExpected usageWitnessNets),
                networks := usageWitnessNets.map netExpected },
            usage_pie_chart := some
              { client_mac := "aa:bb:cc:dd:ee:ff",
                summary := create_pie_chart_values
                  (pieSummary (summaryExpected usageWitnessNets)),
                networks := usageWitnessNets.map pieExpected } } :=
  ⟨by decide, by decide,
   (C3_usage_api_errors "aa:bb:cc:dd:ee:ff" (by decide)
     usageWitnessNets).2 (by decide)⟩

/-- Counterexample to C3 as stated: a non-"not found" `APIError` on `N1`
makes the method return normally (`Except.ok`) with neither field set —
the error is swallowed rather than surfaced to the caller, and even the
already-processed networks are discarded. -/
theorem C3_usage_api_errors_cex :
    app_usage_history "aa:bb:cc:dd:ee:ff"
        [⟨"N1", .ok [⟨"AppA", 10, 5⟩]⟩, ⟨"N2", .otherErr⟩] =
      .ok { usage := none, usage_pie_chart := none } := by
  rfl

/-! ## Claim C6: the organization-wide summary is the element-wise sum -/

/-- Effect of one `summaryAdd` on a lookup. -/
theorem lookupSummary_summaryAdd (s : List (String × ℚ × ℚ))
    (a : AppRecord) (name : String) :
    lookupSummary (summaryAdd s a) name =
      if a.application = name then
        some (match lookupSummary s name with
          | some rt => (rt.1 + a.received, rt.2 + a.sent)
          | none => (a.received, a.sent))
      else lookupSummary s name := by
  by_cases hmem : s.any (fun p => p.1 = a.application)
  · rw [summaryAdd, if_pos hmem]
    have hkey : (fun p : String × ℚ × ℚ => decide (p.1 = name)) ∘
        (fun p : String × ℚ × ℚ =>
          if p.1 = a.application then
            (p.1, p.2.1 + a.received, p.2.2 + a.sent)
          else p) =
        fun p : String × ℚ × ℚ => decide (p.1 = name) := by
      funext p
      by_cases hp : p.1 = a.application <;> simp [hp]
    rw [lookupSummary, List.find?_map, hkey]
    cases hf : s.find? (fun p => p.1 = name) with
    | none =>
      by_cases han : a.application = name
      · exfalso
        rcases List.any_eq_true.mp hmem with ⟨p, hp, hpk⟩
        have := List.find?_eq_none.mp hf p hp
        simp only [decide_eq_true_eq] at this hpk
        exact this (hpk.trans han)
      · simp [lookupSummary, hf, han]
    | some p =>
      have hpname : p.1 = name := by
        have := List.find?_some hf
        simpa using this
      by_cases han : a.application = name
      · rw [if_pos han]
        have hpa : p.1 = a.application := hpname.trans han.symm
        simp [lookupSummary, hf, hpa]
      · have hpa : ¬ p.1 = a.application := fun hcon =>
          han (hcon.symm.trans hpname)
        simp [lookupSummary, hf, hpa, han]
  · rw [summaryAdd, if_neg hmem]
    rw [lookupSummary, List.find?_append]
    cases hf : s.find? (fun p => p.1 = name) with
    | none =>
      by_cases han : a.application = name
      · simp [lookupSummary, hf, List.find?_cons, han]
      · simp [lookupSummary, hf, List.find?_cons, han]
    | some p =>
      have hpname : p.1 = name := by
        have := List.find?_some hf
        simpa using this
      by_cases han : a.application = name
      · exfalso
        apply hmem
        refine List.any_eq_true.mpr ⟨p, List.mem_of_find?_eq_some hf, ?_⟩
        simp [hpname, han]
      · simp [lookupSummary, hf, han]

/-- Effect of one `summaryAdd` on the recorded totals. -/
theorem summaryTotals_summaryAdd (s : List (String × ℚ × ℚ))
    (a : AppRecord) (name : String) :
    summaryTotals (summaryAdd s a) name =
      if a.application = name then
        ((summaryTotals s name).1 + a.received,
         (summaryTotals s name).2 + a.sent)
      else summaryTotals s name := by
  rw [summaryTotals, lookupSummary_summaryAdd]
  by_cases han : a.application = name
  · rw [if_pos han, if_pos han]
    cases hl : lookupSummary s name with
    | none => simp [summaryTotals, hl]
    | some rt => simp [summaryTotals, hl]
  · rw [if_neg han, if_neg han, summaryTotals]

/-- Effect of one `summaryAdd` on key presence. -/
theorem lookupSummary_summaryAdd_isSome (s : List (String × ℚ × ℚ))
    (a : AppRecord) (name : String) :
    (lookupSummary (summaryAdd s a) name).isSome ↔
      (lookupSummary s name).isSome ∨ a.application = name := by
  rw [lookupSummary_summaryAdd]
  by_cases han : a.application = name <;> simp [han]

theorem netReceived_cons (a : AppRecord) (rest : List AppRecord)
    (name : String) :
    netReceived (a :: rest) name =
      (if a.application = name then a.received else 0) +
        netReceived rest name := by
  by_cases h : a.application = name <;>
    simp [netReceived, List.filter_cons, h]

theorem netSent_cons (a : AppRecord) (rest : List AppRecord)
    (name : String) :
    netSent (a :: rest) name =
      (if a.application = name then a.sent else 0) + netSent rest name := by
  by_cases h : a.application = name <;>
    simp [netSent, List.filter_cons, h]

/-- Folding a row list into the summary adds the list's per-application
totals to the recorded pair. -/
theorem summaryTotals_foldl (apps : List AppRecord)
    (s : List (String × ℚ × ℚ)) (name : String) :
    summaryTotals (apps.foldl summaryAdd s) name =
      ((summaryTotals s name).1 + netReceived apps name,
       (summaryTotals s name).2 + netSent apps name) := by
  induction apps generalizing s with
  | nil => simp [netReceived, netSent]
  | cons a rest ih =>
    rw [List.foldl_cons, ih, netReceived_cons, netSent_cons,
      summaryTotals_summaryAdd]
    by_cases h : a.application = name
    · simp only [if_pos h, Prod.mk.injEq]
      constructor <;> ring
    · simp only [if_neg h, Prod.mk.injEq]
      constructor <;> ring

/-- Folding a row list into the summary adds exactly the list's
application names to the key set. -/
theorem lookupSummary_foldl_isSome (apps : List AppRecord)
    (s : List (String × ℚ × ℚ)) (name : String) :
    (lookupSummary (apps.foldl summaryAdd s) name).isSome ↔
      (lookupSummary s name).isSome ∨
        name ∈ apps.map AppRecord.application := by
  induction apps generalizing s with
  | nil => simp
  | cons a rest ih =>
    rw [List.foldl_cons, ih, lookupSummary_summaryAdd_isSome]
    constructor
    · rintro ((h | h) | h)
      · exact Or.inl h
      · exact Or.inr (by simp [h.symm])
      · exact Or.inr (by simp [h])
    · rintro (h | h)
      · exact Or.inl (Or.inl h)
      · rcases List.mem_cons.mp (List.mem_map.mp h).choose_spec.1 with h1 | h1
        · rcases List.mem_map.mp h with ⟨x, hx, rfl⟩
          rcases List.mem_cons.mp hx with rfl | hx'
          · exact Or.inl (Or.inr rfl)
          · exact Or.inr (List.mem_map.mpr ⟨x, hx', rfl⟩)
        · rcases List.mem_map.mp h with ⟨x, hx, rfl⟩
          rcases List.mem_cons.mp hx with rfl | hx'
          · exact Or.inl (Or.inr rfl)
          · exact Or.inr (List.mem_map.mpr ⟨x, hx', rfl⟩)

theorem netReceived_sort (apps : List AppRecord) (name : String) :
    netReceived (sortAppsByName apps) name = netReceived apps name :=
  (((List.mergeSort_perm apps _).filter _).map _).sum_eq

theorem netSent_sort (apps : List AppRecord) (name : String) :
    netSent (sortAppsByName apps) name = netSent apps name :=
  (((List.mergeSort_perm apps _).filter _).map _).sum_eq

theorem mem_sortAppsByName (apps : List AppRecord) (name : String) :
    name ∈ (sortAppsByName apps).map AppRecord.application ↔
      name ∈ apps.map AppRecord.application :=
  ((List.mergeSort_perm apps _).map _).mem_iff

/-- Totals recorded by the whole network loop. -/
theorem summaryTotals_expected (nets : List UsageNet) (name : String) :
    summaryTotals (summaryExpected nets) name =
      ((nets.map (fun n => netReceived (okApps n) name)).sum,
       (nets.map (fun n => netSent (okApps n) name)).sum) := by
  suffices h : ∀ s, summaryTotals
      (nets.foldl
        (fun s n => (sortAppsByName (okApps n)).foldl summaryAdd s) s)
      name =
      ((summaryTotals s name).1 +
        (nets.map (fun n => netReceived (okApps n) name)).sum,
       (summaryTotals s name).2 +
        (nets.map (fun n => netSent (okApps n) name)).sum) by
    have h0 := h []
    have hz : summaryTotals [] name = (0, 0) := rfl
    rw [summaryExpected, h0, hz]
    simp
  induction nets with
  | nil => intro s; simp
  | cons n rest ih =>
    intro s
    rw [List.foldl_cons, ih, summaryTotals_foldl, netReceived_sort,
      netSent_sort]
    simp only [List.map_cons, List.sum_cons, Prod.mk.injEq]
    constructor <;> ring

/-- Key set recorded by the whole network loop. -/
theorem lookupSummary_expected_isSome (nets : List UsageNet)
    (name : String) :
    (lookupSummary (summaryExpected nets) name).isSome ↔
      ∃ n ∈ nets, name ∈ (okApps n).map AppRecord.application := by
  suffices h : ∀ s, (lookupSummary
      (nets.foldl
        (fun s n => (sortAppsByName (okApps n)).foldl summaryAdd s) s)
      name).isSome ↔
      (lookupSummary s name).isSome ∨
        ∃ n ∈ nets, name ∈ (okApps n).map AppRecord.application by
    have h0 := h []
    rw [summaryExpected, h0]
    simp [lookupSummary]
  induction nets with
  | nil => intro s; simp
  | cons n rest ih =>
    intro s
    rw [List.foldl_cons, ih, lookupSummary_foldl_isSome,
      mem_sortAppsByName]
    constructor
    · rintro ((h | h) | ⟨m, hm, hname⟩)
      · exact Or.inl h
      · exact Or.inr ⟨n, List.mem_cons_self n rest, h⟩
      · exact Or.inr ⟨m, List.mem_cons_of_mem n hm, hname⟩
    · rintro (h | ⟨m, hm, hname⟩)
      · exact Or.inl (Or.inl h)
      · rcases List.mem_cons.mp hm with rfl | hm'
        · exact Or.inl (Or.inr hname)
        · exact Or.inr ⟨m, hm', hname⟩

/-- C6: for every application name, the organization-wide summary
dictionary built by the loop records exactly the element-wise sums over
all networks of the fetched per-application received and sent kilobytes,
and its key set is the union of the per-network application key sets;
for a nonempty MAC and an error-free run, the delivered `self.usage`
carries exactly this summary (element-wise `convert_bytes` of it) and one
table per network. -/
theorem C6_summary_sums (nets : List UsageNet) (name : String) :
    summaryTotals (summaryExpected nets) name =
      ((nets.map (fun n => netReceived (okApps n) name)).sum,
       (nets.map (fun n => netSent (okApps n) name)).sum) ∧
    ((lookupSummary (summaryExpected nets) name).isSome ↔
      ∃ n ∈ nets, name ∈ (okApps n).map AppRecord.application) ∧
    (∀ mac : String, mac ≠ "" → (∀ n ∈ nets, n.resp ≠ .otherErr) →
      app_usage_history mac nets =
        .ok { usage := some
                { client_mac := mac,
                  summary := convertSummary (summaryExpected nets),
                  networks := nets.map netExpected },
              usage_pie_chart := some
                { client_mac := mac,
                  summary := create_pie_chart_values
                    (pieSummary (summaryExpected nets)),
                  networks := nets.map pieExpected } }) :=
  ⟨summaryTotals_expected nets name,
   lookupSummary_expected_isSome nets name,
   fun _mac hmac hok => app_usage_history_ok hmac hok⟩

/-- Witness for C6: application `A` appears in both networks, with
`10 + 1 = 11` KB received and `5 + 2 = 7` KB sent overall. -/
theorem C6_summary_sums_witness :
    summaryTotals (summaryExpected summaryWitnessNets) "A" = (11, 7) ∧
    ("aa:bb:cc:dd:ee:ff" : String) ≠ "" ∧
    (∀ n ∈ summaryWitnessNets, n.resp ≠ .otherErr) ∧
    app_usage_history "aa:bb:cc:dd:ee:ff" summaryWitnessNets =
      .ok { usage := some
              { client_mac := "aa:bb:cc:dd:ee:ff",
                summary := convertSummary (summaryExpected summaryWitnessNets),
                networks := summaryWitnessNets.map netExpected },
            usage_pie_chart := some
              { client_mac := "aa:bb:cc:dd:ee:ff",
                summary := create_pie_chart_values
                  (pieSummary (summaryExpected summaryWitnessNets)),
                networks := summaryWitnessNets.map pieExpected } } := by
  refine ⟨?_, by decide, by decide, ?_⟩
  · rw [(C6_summary_sums summaryWitnessNets "A").1]
    with_unfolding_all decide
  · exact (C6_summary_sums summaryWitnessNets "A").2.2 "aa:bb:cc:dd:ee:ff"
      (by decide) (by decide)

/-! ## Claim C7: where the unit conversion happens -/

theorem dictGet_dictInsert_self {α : Type} (d : List (String × α))
    (k : String) (v : α) : dictGet (dictInsert d k v) k = some v := by
  by_cases hmem : d.any (fun p => p.1 = k)
  · rw [dictInsert, if_pos hmem]
    have hkey : (fun p : String × α => decide (p.1 = k)) ∘
        (fun p : String × α => if p.1 = k then (k, v) else p) =
        fun p : String × α => decide (p.1 = k) := by
      funext p
      by_cases hp : p.1 = k <;> simp [hp]
    rw [dictGet, List.find?_map, hkey]
    cases hf : d.find? (fun p => p.1 = k) with
    | none =>
      exfalso
      rcases List.any_eq_true.mp hmem with ⟨p, hp, hpk⟩
      have := List.find?_eq_none.mp hf p hp
      exact this hpk
    | some p =>
      have hpk : p.1 = k := by
        have := List.find?_some hf
        simpa using this
      simp [hpk]
  · rw [dictInsert, if_neg hmem, dictGet, List.find?_append]
    have hf : d.find? (fun p => p.1 = k) = none := by
      rw [List.find?_eq_none]
      intro p hp hpk
      exact hmem (List.any_eq_true.mpr ⟨p, hp, hpk⟩)
    simp [hf, List.find?_cons]

theorem dictGet_dictInsert_ne {α : Type} (d : List (String × α))
    {k k' : String} (v : α) (h : k' ≠ k) :
    dictGet (dictInsert d k' v) k = dictGet d k := by
  by_cases hmem : d.any (fun p => p.1 = k')
  · rw [dictInsert, if_pos hmem]
    have hkey : (fun p : String × α => decide (p.1 = k)) ∘
        (fun p : String × α => if p.1 = k' then (k', v) else p) =
        fun p : String × α => decide (p.1 = k) := by
      funext p
      by_cases hp : p.1 = k' <;> simp [hp, h]
    rw [dictGet, List.find?_map, hkey]
    cases hf : d.find? (fun p => p.1 = k) with
    | none => simp [dictGet, hf]
    | some p =>
      have hpk : p.1 = k := by
        have := List.find?_some hf
        simpa using this
      have hpk' : ¬ p.1 = k' := fun hc => h (hc.symm.trans hpk)
      simp [dictGet, hf, hpk']
  · rw [dictInsert, if_neg hmem, dictGet, List.find?_append]
    have hsingle : ([(k', v)].find? (fun p => p.1 = k)) = none := by
      simp [List.find?_cons, h]
    rw [hsingle, Option.or_none, dictGet]

theorem dictGet_foldl_not_mem {α β : Type} (key : β → String)
    (val : β → α) (l : List β) (d : List (String × α)) {k : String}
    (h : k ∉ l.map key) :
    dictGet (l.foldl (fun d x => dictInsert d (key x) (val x)) d) k =
      dictGet d k := by
  induction l generalizing d with
  | nil => rfl
  | cons y rest ih =>
    have hk : key y ≠ k := fun hc => h (by simp [hc])
    have hrest : k ∉ rest.map key := fun hc => h (by simp [hc])
    rw [List.foldl_cons, ih _ hrest, dictGet_dictInsert_ne _ _ hk]

/-- In a key-distinct fold of `dictInsert`s, every inserted element is
retrievable. -/
theorem dictGet_foldl_mem {α β : Type} (key : β → String) (val : β → α)
    (l : List β) (hnd : (l.map key).Nodup) (x : β) (hx : x ∈ l)
    (d : List (String × α)) :
    dictGet (l.foldl (fun d y => dictInsert d (key y) (val y)) d)
      (key x) = some (val x) := by
  induction l generalizing d with
  | nil => exact absurd hx (List.not_mem_nil x)
  | cons y rest ih =>
    have hnd2 := hnd
    rw [List.map_cons, List.nodup_cons] at hnd2
    rcases List.mem_cons.mp hx with rfl | hx'
    · rw [List.foldl_cons,
        dictGet_foldl_not_mem key val rest _ hnd2.1,
        dictGet_dictInsert_self]
    · rw [List.foldl_cons]
      exact ih hnd2.2 hx' _

theorem sortAppsByName_nodup_keys {apps : List AppRecord}
    (hnd : (apps.map AppRecord.application).Nodup) :
    ((sortAppsByName apps).map AppRecord.application).Nodup :=
  (((List.mergeSort_perm apps _).map AppRecord.application).nodup_iff).mpr
    hnd

/-- C7 (amended): the unit conversion happens INSIDE the tables the
aggregator delivers.  For a network with distinct application names, the
delivered per-network table entry for each row is the pair of
`convert_bytes` strings of its raw kilobyte counts (not the raw counts),
and each delivered summary entry is the pair of `convert_bytes` strings
of the summed raw kilobyte counts.  Only the pie-chart tables keep
numeric kilobyte totals.  (The original claim — tables store kilobytes with
conversion only at presentation time — is refuted by
`C7_tables_store_converted_cex`.) -/
theorem C7_tables_store_converted (apps : List AppRecord)
    (hnd : (apps.map AppRecord.application).Nodup) (a : AppRecord)
    (ha : a ∈ apps) (s : List (String × ℚ × ℚ)) (name : String) :
    dictGet (netAppsTable apps) a.application =
      some [convert_bytes a.received, convert_bytes a.sent] ∧
    dictGet (convertSummary s) name =
      (lookupSummary s name).map
        (fun rt => [convert_bytes rt.1, convert_bytes rt.2]) := by
  constructor
  · rw [netAppsTable]
    exact dictGet_foldl_mem AppRecord.application
      (fun a => [convert_bytes a.received, convert_bytes a.sent])
      (sortAppsByName apps) (sortAppsByName_nodup_keys hnd) a
      ((List.mergeSort_perm apps _).mem_iff.mpr ha) []
  · rw [convertSummary, dictGet, lookupSummary, List.find?_map]
    have hkey : (fun p : String × List String => decide (p.1 = name)) ∘
        (fun p : String × ℚ × ℚ =>
          (p.1, [convert_bytes p.2.1, convert_bytes p.2.2])) =
        fun p : String × ℚ × ℚ => decide (p.1 = name) := rfl
    rw [hkey]
    cases s.find? (fun p => p.1 = name) <;> rfl

/-- Witness for C7 at a single-application network. -/
theorem C7_tables_store_converted_witness :
    (([⟨"AppA", 2000000, 500000⟩] : List AppRecord).map
      AppRecord.application).Nodup ∧
    dictGet (netAppsTable [⟨"AppA", 2000000, 500000⟩]) "AppA" =
      some [convert_bytes 2000000, convert_bytes 500000] ∧
    dictGet (convertSummary [("AppA", 2000000, 500000)]) "AppA" =
      some [convert_bytes 2000000, convert_bytes 500000] := by
  refine ⟨by decide, ?_, ?_⟩
  · exact (C7_tables_store_converted [⟨"AppA", 2000000, 500000⟩]
      (by decide) ⟨"AppA", 2000000, 500000⟩ (by simp) [] "AppA").1
  · have h := (C7_tables_store_converted [⟨"AppA", 2000000, 500000⟩]
      (by decide) ⟨"AppA", 2000000, 500000⟩ (by simp)
      [("AppA", 2000000, 500000)] "AppA").2
    rw [h]
    rfl

/-- Counterexample to C7 as stated: the delivered per-network table for
`N1` stores the converted strings `"1.91 GB"` / `"488.28 MB"`, not the
kilobyte counts `2000000` / `500000` as delivered by the source. -/
theorem C7_tables_store_converted_cex :
    getUsageNetworks (app_usage_history "aa:bb:cc:dd:ee:ff"
        [⟨"N1", .ok [⟨"AppA", 2000000, 500000⟩]⟩]) =
      [⟨"N1", [("AppA", ["1.91 GB", "488.28 MB"])]⟩] ∧
    "1.91 GB" ≠ fmtNum 2000000 ++ " KB" ∧
    "488.28 MB" ≠ fmtNum 500000 ++ " KB" := by
  with_unfolding_all decide

/-! ## Claim C8: `convert_bytes` -/

/-- Python's banker's rounding lands within half a unit. -/
theorem pyRoundInt_near (q : ℚ) : |(pyRoundInt q : ℚ) - q| ≤ 1/2 := by
  have hfl : (⌊q⌋ : ℚ) ≤ q := Int.floor_le q
  have hfu : q < ⌊q⌋ + 1 := Int.lt_floor_add_one q
  simp only [pyRoundInt]
  split_ifs with h1 h2 h3
  · rw [abs_le]
    constructor <;> linarith
  · rw [abs_le]
    push_cast
    constructor <;> linarith
  · have hr : q - ⌊q⌋ = 1/2 := le_antisymm (not_lt.mp h2) (not_lt.mp h1)
    rw [abs_le]
    constructor <;> linarith
  · have hr : q - ⌊q⌋ = 1/2 := le_antisymm (not_lt.mp h2) (not_lt.mp h1)
    rw [abs_le]
    push_cast
    constructor <;> linarith

/-- Python `round(x, 2)` lands within `1/200` of its argument. -/
theorem round2_near (q : ℚ) : |round2 q - q| ≤ 1/200 := by
  have h := pyRoundInt_near (q * 100)
  have heq : round2 q - q = ((pyRoundInt (q * 100) : ℚ) - q * 100) / 100 := by
    rw [round2]; ring
  rw [heq, abs_div, abs_of_pos (by norm_num : (0:ℚ) < 100)]
  linarith

/-- Python `round(x, 2)` is an integer multiple of `1/100`. -/
theorem round2_den (q : ℚ) : (round2 q * 100).den = 1 := by
  have heq : round2 q * 100 = (pyRoundInt (q * 100) : ℚ) := by
    rw [round2]
    field_simp
  rw [heq, Rat.den_intCast]

/-- C8: `convert_bytes` divides by 1,048,576 and rounds to 2 decimals
(within `1/200` of the quotient, on the hundredths grid) with suffix
`" GB"` when `num ≥ 1,048,576`; divides by 1,024 likewise with suffix
`" MB"` when `1,024 ≤ num < 1,048,576`; and returns the number unchanged
with suffix `" KB"` otherwise; in particular
`convert_bytes 2000000 = "1.91 GB"` and `convert_bytes 10 = "10 KB"`. -/
theorem C8_convert_bytes (num : ℚ) :
    (1024 * 1024 ≤ num →
      convert_bytes num = fmtFloat (round2 (num / (1024 * 1024))) ++ " GB" ∧
      |round2 (num / (1024 * 1024)) - num / (1024 * 1024)| ≤ 1 / 200 ∧
      (round2 (num / (1024 * 1024)) * 100).den = 1) ∧
    (1024 ≤ num → num < 1024 * 1024 →
      convert_bytes num = fmtFloat (round2 (num / 1024)) ++ " MB" ∧
      |round2 (num / 1024) - num / 1024| ≤ 1 / 200 ∧
      (round2 (num / 1024) * 100).den = 1) ∧
    (num < 1024 → convert_bytes num = fmtNum num ++ " KB") ∧
    convert_bytes 2000000 = "1.91 GB" ∧
    convert_bytes 10 = "10 KB" := by
  refine ⟨?_, ?_, ?_, ?_, ?_⟩
  · intro h
    exact ⟨by rw [convert_bytes, if_pos h], round2_near _, round2_den _⟩
  · intro h1 h2
    exact ⟨by rw [convert_bytes, if_neg (not_le.mpr h2), if_pos h1],
      round2_near _, round2_den _⟩
  · intro h
    have h2 : ¬ (1024 * 1024 ≤ num) :=
      not_le.mpr (h.trans (by norm_num))
    rw [convert_bytes, if_neg h2, if_neg (not_le.mpr h)]
  · with_unfolding_all decide
  · with_unfolding_all decide

/-! ## Claim C4: extraction failure semantics -/

/-- C4 (code bug): when the MAC-address-table query comes back carrying
the invalid-command marker, `execute_switch_commands` returns `None` and
the UNGUARDED `output.strip()` of `macAddressTable`
(catalyst_client.py:108) raises `AttributeError`: the whole extraction
aborts — the remaining queries never run and the populated earlier fields
are lost — instead of leaving only `vlan`/`interface` unset.  With the
same inputs and a valid MAC-table output the extraction completes.  Every
sibling query (`hostname`, `arpTable`, `interfaceStatus`,
`neighborInformation`) guards its output and skips, which shows the skip
semantics the specification states is the intent. -/
theorem C4_extraction_aborts :
    extractDetails invalidMacTableOutputs
        (initState (some "aa:bb:cc:dd:ee:ff") none) =
      .error .attributeError ∧
    exceptOk (extractDetails benignOutputs
        (initState (some "aa:bb:cc:dd:ee:ff") none)) = true :=
  ⟨by with_unfolding_all rfl, by with_unfolding_all rfl⟩

/-! ## Claim C5: the session is released only on the full success path -/

/-- C5 (amended): `disconnectFromSwitch` runs before the probe ends if
and only if the connection succeeded, the client-present check returned
true, and the extraction raised no exception — and exactly then is
`cat_details` published.  In particular a probe that connects but finds
the client absent leaves the SSH session open (original claim refuted by
`C5_disconnect_cex`). -/
theorem C5_disconnect (inp : ProbeInput) :
    (catalyst_client_information inp).connected = inp.connectOk ∧
    ((catalyst_client_information inp).disconnected = true ↔
      inp.connectOk = true ∧
      clientPresentCheck (initState inp.mac inp.ip) inp.checkMacOut
        inp.checkArpOut = true ∧
      exceptOk (extractDetails inp.extract (initState inp.mac inp.ip)) =
        true) ∧
    ((catalyst_client_information inp).cat_details.isSome = true ↔
      (catalyst_client_information inp).disconnected = true) := by
  simp only [catalyst_client_information]
  cases hc : inp.connectOk with
  | false => simp
  | true =>
    cases hp : clientPresentCheck (initState inp.mac inp.ip)
        inp.checkMacOut inp.checkArpOut with
    | false => simp [hp]
    | true =>
      cases he : extractDetails inp.extract (initState inp.mac inp.ip) with
      | ok st => simp [hp, he, exceptOk]
      | error e => simp [hp, he, exceptOk]

/-- Counterexample to C5 as stated: the connection succeeds, the client
is not present, and the probe ends without `disconnectFromSwitch` —
the session is left open. -/
theorem C5_disconnect_cex :
    (catalyst_client_information probeAbsentInput).connected = true ∧
    (catalyst_client_information probeAbsentInput).disconnected = false := by
  with_unfolding_all decide

/-- Witness for C8 at the specification's two sample inputs. -/
theorem C8_convert_bytes_witness :
    (1024 * 1024 ≤ (2000000 : ℚ)) ∧
    convert_bytes 2000000 =
      fmtFloat (round2 (2000000 / (1024 * 1024))) ++ " GB" ∧
    ((10 : ℚ) < 1024) ∧
    convert_bytes 10 = fmtNum 10 ++ " KB" ∧
    convert_bytes 2000000 = "1.91 GB" ∧
    convert_bytes 10 = "10 KB" := by
  have hge : (1024 * 1024 : ℚ) ≤ 2000000 := by norm_num
  have hlt : (10 : ℚ) < 1024 := by norm_num
  exact ⟨hge, ((C8_convert_bytes 2000000).1 hge).1, hlt,
    (C8_convert_bytes 10).2.2.1 hlt,
    (C8_convert_bytes 2000000).2.2.2.1,
    (C8_convert_bytes 10).2.2.2.2⟩

end ClientTracker
